import Mathlib

/-!
Verification of the reconciliation matching engine of `firmannf/recon`.

The development shallowly embeds the Go sources:
* `internal/models/transaction.go` — record types,
* `internal/service/reconciliation.go` — the engine
  (`Reconcile`, `performReconciliation`, the two date filters),
* the `MatchStrategy` interface and `ExactMatchStrategy`,
* the bank-statement row construction of
  `internal/parser/bank_statement_parser.go` (lines 60–72).

Modelling conventions:
* Go `string` is modelled as `List Char` (named `Str` below).
* `shopspring/decimal` amounts are modelled as integers counting
  hundredths (cents): the repository's own requirements document fixes
  all amounts to Indonesian Rupiah with at most two decimal places.
  `decimal.Decimal.String()` — the canonical rendering that trims
  trailing fractional zeros — is modelled by `decimalString`.
* Go `time.Time` is modelled as a count of seconds since the Unix epoch
  (`GoTime`).  All records in this repository carry the fixed UTC+7
  offset (Asia/Jakarta has no DST), so the calendar date of an instant
  is obtained with a fixed offset; `time.Time.Format("2006-01-02")` is
  modelled by the standard civil-from-days algorithm plus zero padding.
* Go's zero `time.Time` (January 1, year 1, 00:00:00 UTC) corresponds
  to the constant `goZeroSec`.
-/

/-- Strings of the Go program, modelled as lists of characters. -/
abbrev Str := List Char

/-- `models.TransactionType`: `"DEBIT"` or `"CREDIT"`. -/
inductive TransactionType where
  | Debit : TransactionType
  | Credit : TransactionType
deriving DecidableEq, Repr

/-- Go `time.Time`, reduced to its instant: seconds since the Unix epoch.
All times in this repository live in the fixed UTC+7 offset. -/
structure GoTime where
  sec : ℤ
deriving DecidableEq, Repr

/-- Seconds-since-Unix-epoch of Go's zero `time.Time`
(January 1, year 1, 00:00:00 UTC). -/
def goZeroSec : ℤ := -62135596800

/-- `time.Time.IsZero`. -/
def GoTime.isZero (t : GoTime) : Bool := t.sec = goZeroSec

/-- `time.Time.Before`. -/
def GoTime.before (t u : GoTime) : Bool := t.sec < u.sec

/-- `time.Time.after`. -/
def GoTime.after (t u : GoTime) : Bool := u.sec < t.sec

/-- `time.Time.Add` of a duration given in whole seconds. -/
def GoTime.add (t : GoTime) (d : ℤ) : GoTime := ⟨t.sec + d⟩

/-- The fixed UTC+7 offset (Asia/Jakarta) used by both parsers. -/
def tzOffsetSeconds : ℤ := 7 * 60 * 60

/-- Civil day number (days since 1970-01-01) of an instant in UTC+7. -/
def dayNumber (t : GoTime) : ℤ := (t.sec + tzOffsetSeconds).fdiv 86400

/-- Civil calendar date `(year, month, day)` from a day number
(days since 1970-01-01): the standard proleptic-Gregorian
civil-from-days algorithm used by `time.Time.Date`. -/
def civilFromDays (z : ℤ) : ℕ × ℕ × ℕ :=
  let z' := z + 719468
  let era := z'.fdiv 146097
  let doe := (z' - era * 146097).toNat
  let yoe := (doe - doe / 1460 + doe / 36524 - doe / 146096) / 365
  let y : ℤ := (yoe : ℤ) + era * 400
  let doy := doe - (365 * yoe + yoe / 4 - yoe / 100)
  let mp := (5 * doy + 2) / 153
  let d := doy - (153 * mp + 2) / 5 + 1
  let m := if mp < 10 then mp + 3 else mp - 9
  let y' := if m ≤ 2 then y + 1 else y
  (y'.toNat, m, d)

/-- The calendar date of an instant, in the records' timezone. -/
def calendarDateOf (t : GoTime) : ℕ × ℕ × ℕ := civilFromDays (dayNumber t)

/-- The ten decimal digit characters. -/
def digitChar : ℕ → Char
  | 0 => '0' | 1 => '1' | 2 => '2' | 3 => '3' | 4 => '4'
  | 5 => '5' | 6 => '6' | 7 => '7' | 8 => '8' | _ => '9'

/-- Fuel-driven decimal rendering (structural recursion so that concrete
instances reduce inside the kernel). -/
def natCharsAux : ℕ → ℕ → Str
  | 0, _ => []
  | fuel + 1, n =>
    if n < 10 then [digitChar n]
    else natCharsAux fuel (n / 10) ++ [digitChar (n % 10)]

/-- Decimal rendering of a natural number, as Go's integer formatting
produces it (no leading zeros; `0` renders as `"0"`). -/
def natChars (n : ℕ) : Str := natCharsAux (n + 1) n

/-- Left-pad a decimal rendering with `'0'` to width `w`
(Go's `Format` padding for `"2006"`, `"01"`, `"02"`). -/
def padNat (w : ℕ) (n : ℕ) : Str :=
  List.replicate (w - (natChars n).length) '0' ++ natChars n

/-- `time.Time.Format("2006-01-02")` applied to a civil date triple. -/
def isoDateChars : ℕ × ℕ × ℕ → Str
  | (y, m, d) => padNat 4 y ++ '-' :: (padNat 2 m ++ '-' :: padNat 2 d)

/-- The unsigned part of `decimal.Decimal.String()` on `n` hundredths:
integer part, then the fractional digits with trailing zeros trimmed. -/
def decimalDigitsPart (n : ℕ) : Str :=
  if n % 100 = 0 then natChars (n / 100)
  else if n % 100 % 10 = 0 then
    natChars (n / 100) ++ '.' :: [digitChar (n % 100 / 10)]
  else
    natChars (n / 100) ++ '.' :: [digitChar (n % 100 / 10), digitChar (n % 100 % 10)]

/-- `decimal.Decimal.String()` on an amount of `c` hundredths:
canonical decimal rendering, trailing fractional zeros trimmed. -/
def decimalString (c : ℤ) : Str :=
  if c < 0 then '-' :: decimalDigitsPart c.natAbs else decimalDigitsPart c.natAbs

/-- The rendering of a `TransactionType` (Go string constant). -/
def typeChars : TransactionType → Str
  | .Debit => ['D', 'E', 'B', 'I', 'T']
  | .Credit => ['C', 'R', 'E', 'D', 'I', 'T']

/-- `models.Transaction`. -/
structure Transaction where
  trxID : Str
  amount : ℤ
  type : TransactionType
  transactionTime : GoTime
deriving DecidableEq, Repr

/-- `models.BankStatementLine`. -/
structure BankStatementLine where
  uniqueIdentifier : Str
  amount : ℤ
  type : TransactionType
  date : GoTime
  bankName : Str
deriving DecidableEq, Repr

/-- `models.BankStatementLine.GetAbsoluteAmount`. -/
def BankStatementLine.getAbsoluteAmount (bs : BankStatementLine) : ℤ :=
  |bs.amount|

/-- Placeholder bank line used for (never-occurring) out-of-range
index accesses in the embedding. -/
def dummyBank : BankStatementLine :=
  { uniqueIdentifier := [], amount := 0, type := .Credit
    date := ⟨0⟩, bankName := [] }

/-- The `service.MatchStrategy` interface. -/
structure MatchStrategy where
  buildKey : TransactionType → ℤ → GoTime → Str → Str
  isMatch : Transaction → BankStatementLine → Bool

/-- `service.ExactMatchStrategy`: key `TYPE_AMOUNT_DATE` via
`fmt.Sprintf("%s_%s_%s", trxType, amount.String(), date.Format("2006-01-02"))`;
`IsMatch` always true. -/
def exactMatchStrategy : MatchStrategy where
  buildKey := fun trxType amount date _ =>
    typeChars trxType ++ '_' :: (decimalString amount ++ '_' :: isoDateChars (calendarDateOf date))
  isMatch := fun _ _ => true

/-- The key the pairing pass computes for a bank line
(`matchStrategy.BuildKey(bankStmt.Type, bankStmt.GetAbsoluteAmount(), bankStmt.Date, bankStmt.UniqueIdentifier)`). -/
def bankKey (strategy : MatchStrategy) (bs : BankStatementLine) : Str :=
  strategy.buildKey bs.type bs.getAbsoluteAmount bs.date bs.uniqueIdentifier

/-- The key the pairing pass computes for a system transaction
(`matchStrategy.BuildKey(sysTrx.Type, sysTrx.Amount, sysTrx.TransactionTime, sysTrx.TrxID)`). -/
def sysKey (strategy : MatchStrategy) (tx : Transaction) : Str :=
  strategy.buildKey tx.type tx.amount tx.transactionTime tx.trxID

/-- The index `bankStmtIndex : map[string][]int` of `performReconciliation`:
for each bank line in input order, append its position to its key's bucket.
A key absent from the Go map corresponds to an empty bucket here. -/
def buildBankIndex (strategy : MatchStrategy) (bankStmts : List BankStatementLine) :
    Str → List ℕ :=
  bankStmts.enum.foldl
    (fun idx p =>
      let key := bankKey strategy p.2
      fun k => if k = key then idx k ++ [p.1] else idx k)
    (fun _ => [])

/-- The inner candidate loop of `performReconciliation`: walk a bucket in
order, skip positions already in `matchedBank`, apply `IsMatch`, and return
the first admissible position (Go `break`s there). -/
def findFirstMatch (strategy : MatchStrategy) (bankStmts : List BankStatementLine)
    (matchedBank : List ℕ) (sysTrx : Transaction) : List ℕ → Option ℕ
  | [] => none
  | bankIdx :: rest =>
    if matchedBank.contains bankIdx then
      findFirstMatch strategy bankStmts matchedBank sysTrx rest
    else if strategy.isMatch sysTrx (bankStmts.getD bankIdx dummyBank) then
      some bankIdx
    else
      findFirstMatch strategy bankStmts matchedBank sysTrx rest

/-- The mutable state of the pairing pass of `performReconciliation`.
`matchedBank` models the `matchedBankStmts` consumed-set (the parallel
`matchedSystemTxs` map is written but never read in the source and is
omitted).  `pairs` is a ghost field recording the pairs formed, used only
in statements; the Go code only counts them. -/
structure PairState where
  matchedBank : List ℕ
  matchedCount : ℕ
  discrepancies : ℤ
  unmatchedSystem : List Transaction
  pairs : List (Transaction × BankStatementLine)
deriving DecidableEq, Repr

/-- One iteration of the pairing loop of `performReconciliation`
(lines 102–142): probe the index with the system transaction's key, take
the first admissible candidate, mark it consumed, count the pair and
accumulate the absolute amount difference (the source adds it only when
non-zero); otherwise append the transaction to the unmatched-system
list. -/
def pairingStep (strategy : MatchStrategy) (bankStmts : List BankStatementLine)
    (index : Str → List ℕ) (st : PairState) (sysTrx : Transaction) : PairState :=
  match findFirstMatch strategy bankStmts st.matchedBank sysTrx (index (sysKey strategy sysTrx)) with
  | some bankIdx =>
      let bank := bankStmts.getD bankIdx dummyBank
      let diff := |sysTrx.amount - bank.getAbsoluteAmount|
      { matchedBank := bankIdx :: st.matchedBank
        matchedCount := st.matchedCount + 1
        discrepancies := if diff = 0 then st.discrepancies else st.discrepancies + diff
        unmatchedSystem := st.unmatchedSystem
        pairs := st.pairs ++ [(sysTrx, bank)] }
  | none =>
      { st with unmatchedSystem := st.unmatchedSystem ++ [sysTrx] }

/-- The full pairing pass: a single pass over the system transactions in
input order. -/
def pairSystemTransactions (strategy : MatchStrategy) (systemTxs : List Transaction)
    (bankStmts : List BankStatementLine) (index : Str → List ℕ) : PairState :=
  systemTxs.foldl (pairingStep strategy bankStmts index)
    { matchedBank := [], matchedCount := 0, discrepancies := 0
      unmatchedSystem := [], pairs := [] }

/-- Append a bank line to its bank's group
(`result.UnmatchedBankStatementLines[bankStmt.BankName] = append(...)`).
The Go map is modelled as an association list in first-insertion order. -/
def addToGroup (groups : List (Str × List BankStatementLine)) (stmt : BankStatementLine) :
    List (Str × List BankStatementLine) :=
  match groups with
  | [] => [(stmt.bankName, [stmt])]
  | (name, l) :: rest =>
      if name = stmt.bankName then (name, l ++ [stmt]) :: rest
      else (name, l) :: addToGroup rest stmt

/-- The unmatched-bank collection loop of `performReconciliation`
(lines 145–155): every bank line whose position was never consumed is
appended to its source's group, preserving input order. -/
def collectUnmatchedBank (bankStmts : List BankStatementLine) (matchedBank : List ℕ) :
    List (Str × List BankStatementLine) :=
  bankStmts.enum.foldl
    (fun gs p => if matchedBank.contains p.1 then gs else addToGroup gs p.2) []

/-- `models.ReconciliationResult`.  The per-source map of unmatched bank
lines is modelled as an association list in first-insertion order. -/
structure ReconciliationResult where
  totalTransactionsProcessed : ℕ
  totalMatchedTransactions : ℕ
  totalUnmatchedTransactions : ℕ
  unmatchedSystemTransactions : List Transaction
  unmatchedBankStatementLines : List (Str × List BankStatementLine)
  totalDiscrepancies : ℤ
  totalSystemTransactions : ℕ
  totalBankStatementLines : ℕ
deriving DecidableEq, Repr

/-- `service.performReconciliation`: index, pair, collect unmatched bank
lines, and compute the totals (`len(systemTxs) + len(bankStmts)` processed;
unmatched-system count plus each group's length for total unmatched). -/
def performReconciliation (systemTxs : List Transaction)
    (bankStmts : List BankStatementLine) (strategy : MatchStrategy) :
    ReconciliationResult :=
  let index := buildBankIndex strategy bankStmts
  let st := pairSystemTransactions strategy systemTxs bankStmts index
  let unmatchedBank := collectUnmatchedBank bankStmts st.matchedBank
  { totalSystemTransactions := systemTxs.length
    totalBankStatementLines := bankStmts.length
    totalMatchedTransactions := st.matchedCount
    unmatchedSystemTransactions := st.unmatchedSystem
    unmatchedBankStatementLines := unmatchedBank
    totalDiscrepancies := st.discrepancies
    totalTransactionsProcessed := systemTxs.length + bankStmts.length
    totalUnmatchedTransactions :=
      unmatchedBank.foldl (fun acc g => acc + g.2.length) st.unmatchedSystem.length }

/-- `service.filterTransactionsByDateRange`: keep a transaction iff its
timestamp is neither before `startDate` nor after `endDate`. -/
def filterTransactionsByDateRange (transactions : List Transaction)
    (startDate endDate : GoTime) : List Transaction :=
  transactions.filter
    (fun trx => !(trx.transactionTime.before startDate) && !(trx.transactionTime.after endDate))

/-- `service.filterBankStatementsByDateRange`: keep a line iff its date is
neither before `startDate` nor after `endDate`. -/
def filterBankStatementsByDateRange (statements : List BankStatementLine)
    (startDate endDate : GoTime) : List BankStatementLine :=
  statements.filter
    (fun stmt => !(stmt.date.before startDate) && !(stmt.date.after endDate))

/-- The error message of the range check in `Reconcile`. -/
def rangeErrorMsg : Str :=
  "start date must not be after end date".data

/-- `service.Reconcile` at the engine boundary: CSV parsing is an
upstream collaborator (spec §1), so the already-parsed record lists are
received as arguments.  End-date defaulting, range validation, the two
date filters and `performReconciliation`, exactly as in lines 34–75. -/
def Reconcile (systemTransactions : List Transaction)
    (bankStatements : List BankStatementLine) (strategy : MatchStrategy)
    (startDate endDate : GoTime) : Except Str ReconciliationResult :=
  let endDate :=
    if endDate.isZero then
      startDate.add (23 * 3600 + 59 * 60 + 59)
    else endDate
  if startDate.after endDate then
    .error rangeErrorMsg
  else
    let systemTxs := filterTransactionsByDateRange systemTransactions startDate endDate
    let bankStmts := filterBankStatementsByDateRange bankStatements startDate endDate
    .ok (performReconciliation systemTxs bankStmts strategy)

/-- The bank-statement row construction of
`BankStatementParser.ParseCSV` (lines 60–72): the direction is derived
from the amount sign (`IsNegative` ⇒ DEBIT, otherwise CREDIT), never
stored independently. -/
def deriveBankType (amount : ℤ) : TransactionType :=
  if amount < 0 then .Debit else .Credit

/-- The `models.BankStatementLine` literal built by the parse loop. -/
def mkBankStatementLine (uniqueIdentifier : Str) (amount : ℤ) (date : GoTime)
    (bankName : Str) : BankStatementLine :=
  { uniqueIdentifier := uniqueIdentifier
    amount := amount
    type := deriveBankType amount
    date := date
    bankName := bankName }

/-- Total number of bank lines across the per-source unmatched groups. -/
def groupLengthSum (groups : List (Str × List BankStatementLine)) : ℕ :=
  (groups.map (fun g => g.2.length)).sum

/-- Whether bucket position `i` is admissible for `sysTrx` in the candidate
loop: not yet consumed and accepted by the strategy's `IsMatch`. -/
def admissible (strategy : MatchStrategy) (bankStmts : List BankStatementLine)
    (matchedBank : List ℕ) (sysTrx : Transaction) (i : ℕ) : Bool :=
  !(matchedBank.contains i) && strategy.isMatch sysTrx (bankStmts.getD i dummyBank)

/-- The (ghost) list of matched pairs formed by the pairing pass. -/
def matchedPairs (systemTxs : List Transaction) (bankStmts : List BankStatementLine)
    (strategy : MatchStrategy) : List (Transaction × BankStatementLine) :=
  (pairSystemTransactions strategy systemTxs bankStmts
    (buildBankIndex strategy bankStmts)).pairs

/-- Modelled from the spec: "the end of `startDate`'s calendar day
(23:59:59 in the records' timezone)" — the instant 23:59:59 of the civil
day that contains `t`, in UTC+7.  Second definition for the refinement
comparison in claim C7; the source computes `startDate.Add(23h59m59s)`
instead. -/
def specEndOfCalendarDay (t : GoTime) : GoTime :=
  ⟨dayNumber t * 86400 + (23 * 3600 + 59 * 60 + 59) - tzOffsetSeconds⟩

/-- The wall-clock instant of civil day `days` (days since 1970-01-01) at
`tod` seconds after midnight, in UTC+7. -/
def mkTime (days : ℤ) (tod : ℤ) : GoTime :=
  ⟨days * 86400 + tod - tzOffsetSeconds⟩

/-- Civil day number of 2024-01-15. -/
def day20240115 : ℤ := 19737

/-- Example system transaction: 1000.00 / CREDIT / 2024-01-15
(spec §8, first-match-wins determinism). -/
def exSysCredit : Transaction :=
  { trxID := "TX-1".data, amount := 100000, type := .Credit
    transactionTime := mkTime day20240115 0 }

/-- Example bank line: 1000.00 on 2024-01-15, first in input order. -/
def exBank1 : BankStatementLine :=
  { uniqueIdentifier := "B-1".data, amount := 100000, type := .Credit
    date := mkTime day20240115 0, bankName := "bank-a".data }

/-- Example bank line identical to `exBank1` in every matching-relevant
field, second in input order. -/
def exBank2 : BankStatementLine :=
  { exBank1 with uniqueIdentifier := "B-2".data }

/-- Example bank line: 1000.00 on 2024-01-16 (date-sensitivity example). -/
def exBankNextDay : BankStatementLine :=
  { exBank1 with date := mkTime (day20240115 + 1) 0 }

/-- Example system transaction: 500.50 / DEBIT / 2024-01-15. -/
def exSysDebit : Transaction :=
  { trxID := "TX-2".data, amount := 50050, type := .Debit
    transactionTime := mkTime day20240115 0 }

/-- Example parsed bank line of raw amount −500.50 on 2024-01-15: the
parser derives direction DEBIT from the sign. -/
def exBankNegative : BankStatementLine :=
  mkBankStatementLine "B-3".data (-50050) (mkTime day20240115 0) "bank-a".data

/-- Sum of the absolute amount differences over a list of matched pairs
(system amount vs. bank absolute amount). -/
def pairDiffSum (pairs : List (Transaction × BankStatementLine)) : ℤ :=
  (pairs.map (fun pr => |pr.1.amount - pr.2.getAbsoluteAmount|)).sum

/-- All bank lines appearing in the per-source groups, in group order. -/
def flattenGroups (groups : List (Str × List BankStatementLine)) :
    List BankStatementLine :=
  (groups.map (fun g => g.2)).flatten

/-- Go's zero `time.Time` in this model (the unset-sentinel end date). -/
def zeroTime : GoTime := ⟨goZeroSec⟩

/-- Example transaction timestamped exactly at 2024-01-15 00:00:00. -/
def exTxStart : Transaction :=
  { trxID := "T-S".data, amount := 100, type := .Credit
    transactionTime := mkTime day20240115 0 }

/-- Example transaction timestamped exactly at 2024-01-15 23:59:59. -/
def exTxEnd : Transaction :=
  { trxID := "T-E".data, amount := 100, type := .Credit
    transactionTime := mkTime day20240115 (23 * 3600 + 59 * 60 + 59) }

/-- Example transaction one day before the range start (2024-01-14). -/
def exTxDayBefore : Transaction :=
  { trxID := "T-B".data, amount := 100, type := .Credit
    transactionTime := mkTime (day20240115 - 1) 0 }

/-- Example transaction one day after the range end (2024-01-16). -/
def exTxDayAfter : Transaction :=
  { trxID := "T-A".data, amount := 100, type := .Credit
    transactionTime := mkTime (day20240115 + 1) 0 }

/-- Example transaction at 2024-01-16 09:00:00 — before 10:00 of
2024-01-15 plus 23:59:59, yet after the end of 2024-01-15. -/
def exTxNextMorning : Transaction :=
  { trxID := "T-N".data, amount := 100, type := .Credit
    transactionTime := mkTime (day20240115 + 1) (9 * 3600) }

/-- Example bank line exactly at the range start date. -/
def exBankStart : BankStatementLine :=
  { uniqueIdentifier := "B-S".data, amount := 100, type := .Credit
    date := mkTime day20240115 0, bankName := "bank-a".data }

/-- Example bank line one day after the range end. -/
def exBankDayAfter : BankStatementLine :=
  { uniqueIdentifier := "B-A".data, amount := 100, type := .Credit
    date := mkTime (day20240115 + 1) 0, bankName := "bank-a".data }

/-! ### Foundations: decimal renderings are injective and digit-only -/

theorem natCharsAux_fuel_irrel (f : ℕ) : ∀ n : ℕ, n < f → natCharsAux f n = natChars n := by
  induction f using Nat.strong_induction_on with
  | _ f ih =>
    intro n hn
    match f, hn with
    | f + 1, hn =>
      show natCharsAux (f + 1) n = natCharsAux (n + 1) n
      by_cases h10 : n < 10
      · simp [natCharsAux, h10]
      · have hdiv : n / 10 < n := Nat.div_lt_self (by omega) (by omega)
        simp only [natCharsAux, h10, if_false]
        have h1 : natCharsAux f (n / 10) = natChars (n / 10) :=
          ih f (Nat.lt_succ_self f) (n / 10) (by omega)
        have h2 : natCharsAux n (n / 10) = natChars (n / 10) :=
          ih n (by omega) (n / 10) hdiv
        rw [h1, h2]

theorem natChars_eq (n : ℕ) :
    natChars n = if n < 10 then [digitChar n]
      else natChars (n / 10) ++ [digitChar (n % 10)] := by
  show natCharsAux (n + 1) n = _
  by_cases h10 : n < 10
  · simp [natCharsAux, h10]
  · simp only [natCharsAux, h10, if_false]
    rw [natCharsAux_fuel_irrel n (n / 10) (Nat.div_lt_self (by omega) (by omega))]

theorem natChars_ne_nil (n : ℕ) : natChars n ≠ [] := by
  rw [natChars_eq]
  by_cases h10 : n < 10 <;> simp [h10]

theorem digitChar_isDigit (d : ℕ) : (digitChar d).isDigit = true := by
  rcases d with _|_|_|_|_|_|_|_|_|_ <;> rfl

theorem digitChar_inj (a b : ℕ) (ha : a < 10) (hb : b < 10)
    (h : digitChar a = digitChar b) : a = b := by
  interval_cases a <;> interval_cases b <;> simp_all [digitChar]

theorem mem_natChars_isDigit (n : ℕ) : ∀ c ∈ natChars n, c.isDigit = true := by
  induction n using Nat.strong_induction_on with
  | _ n ih =>
    intro c hc
    rw [natChars_eq] at hc
    by_cases h10 : n < 10
    · simp [h10] at hc
      subst hc
      exact digitChar_isDigit n
    · simp [h10] at hc
      rcases hc with hc | hc
      · exact ih (n / 10) (Nat.div_lt_self (by omega) (by omega)) c hc
      · subst hc
        exact digitChar_isDigit _

theorem natChars_head_ne_zero (n : ℕ) (hn : n ≠ 0) :
    ∀ l : Str, natChars n ≠ '0' :: l := by
  induction n using Nat.strong_induction_on with
  | _ n ih =>
    intro l hl
    rw [natChars_eq] at hl
    by_cases h10 : n < 10
    · simp [h10] at hl
      have : n = 0 := by
        have := digitChar_inj n 0 h10 (by omega) (by simpa [digitChar] using hl.1)
        omega
      exact hn this
    · simp [h10] at hl
      rcases hne : natChars (n / 10) with _ | ⟨c, rest⟩
      · exact natChars_ne_nil _ hne
      · rw [hne] at hl
        simp at hl
        exact ih (n / 10) (Nat.div_lt_self (by omega) (by omega))
          (by omega) rest (by rw [hne, hl.1])

theorem natChars_inj : ∀ a b : ℕ, natChars a = natChars b → a = b := by
  intro a
  induction a using Nat.strong_induction_on with
  | _ a ih =>
    intro b h
    rw [natChars_eq a, natChars_eq b] at h
    by_cases ha : a < 10 <;> by_cases hb : b < 10
    · simp [ha, hb] at h
      exact digitChar_inj a b ha hb h
    · exfalso
      simp [ha, hb] at h
      rcases hne : natChars (b / 10) with _ | ⟨c, rest⟩
      · exact natChars_ne_nil _ hne
      · rw [hne] at h
        rcases rest with _ | ⟨c2, rest2⟩ <;> simp at h
    · exfalso
      simp [ha, hb] at h
      rcases hne : natChars (a / 10) with _ | ⟨c, rest⟩
      · exact natChars_ne_nil _ hne
      · rw [hne] at h
        rcases rest with _ | ⟨c2, rest2⟩ <;> simp at h
    · simp [ha, hb] at h
      have hrev := congrArg List.reverse h
      simp at hrev
      have hmod : a % 10 = b % 10 :=
        digitChar_inj _ _ (Nat.mod_lt _ (by omega)) (Nat.mod_lt _ (by omega)) hrev.1
      have hdiv : a / 10 = b / 10 :=
        ih (a / 10) (Nat.div_lt_self (by omega) (by omega)) (b / 10)
          (by
            have := congrArg List.reverse hrev.2
            simpa using this)
      omega

theorem dropWhile_zero_replicate_append (k : ℕ) (l : Str) :
    List.dropWhile (fun c => c == '0') (List.replicate k '0' ++ l) =
      List.dropWhile (fun c => c == '0') l := by
  induction k with
  | zero => simp
  | succ k ih => simp [List.replicate_succ, ih]

theorem dropZeros_padNat (w n : ℕ) :
    List.dropWhile (fun c => c == '0') (padNat w n) =
      if n = 0 then [] else natChars n := by
  unfold padNat
  rw [dropWhile_zero_replicate_append]
  by_cases hn : n = 0
  · subst hn
    simp [natChars, natCharsAux, digitChar]
  · rcases hne : natChars n with _ | ⟨c, rest⟩
    · exact absurd hne (natChars_ne_nil n)
    · have hc : ¬(c == '0') = true := by
        simp only [beq_iff_eq]
        intro h
        exact natChars_head_ne_zero n hn rest (by rw [hne, h])
      simp [hn, List.dropWhile_cons, hc]

theorem padNat_inj (w a b : ℕ) (h : padNat w a = padNat w b) : a = b := by
  have hd := congrArg (List.dropWhile (fun c => c == '0')) h
  rw [dropZeros_padNat, dropZeros_padNat] at hd
  by_cases ha : a = 0 <;> by_cases hb : b = 0
  · omega
  · simp [ha, hb] at hd
    exact absurd (show natChars b = [] by simpa using hd) (natChars_ne_nil b)
  · simp [ha, hb] at hd
    exact absurd (show natChars a = [] by simpa using hd) (natChars_ne_nil a)
  · simp [ha, hb] at hd
    exact natChars_inj a b hd

theorem mem_padNat_isDigit (w n : ℕ) : ∀ c ∈ padNat w n, c.isDigit = true := by
  intro c hc
  unfold padNat at hc
  rcases List.mem_append.mp hc with h | h
  · rw [List.eq_of_mem_replicate h]
    decide
  · exact mem_natChars_isDigit n c h

theorem append_sep_inj {sep : Char} :
    ∀ {a₁ a₂ b₁ b₂ : Str}, sep ∉ a₁ → sep ∉ a₂ →
      a₁ ++ sep :: b₁ = a₂ ++ sep :: b₂ → a₁ = a₂ ∧ b₁ = b₂ := by
  intro a₁
  induction a₁ with
  | nil =>
    intro a₂ b₁ b₂ _ h₂ h
    rcases a₂ with _ | ⟨d, t⟩
    · simpa using h
    · simp at h
      exact absurd (show sep ∈ d :: t by simp [← h.1]) h₂
  | cons c t ih =>
    intro a₂ b₁ b₂ h₁ h₂ h
    rcases a₂ with _ | ⟨d, t'⟩
    · simp at h
      exact absurd (show sep ∈ c :: t by simp [h.1]) h₁
    · simp at h
      have hmem₁ : sep ∉ t := fun hm => h₁ (List.mem_cons_of_mem _ hm)
      have hmem₂ : sep ∉ t' := fun hm => h₂ (List.mem_cons_of_mem _ hm)
      have := ih hmem₁ hmem₂ h.2
      exact ⟨by rw [h.1, this.1], this.2⟩

theorem typeChars_no_underscore (t : TransactionType) : '_' ∉ typeChars t := by
  cases t <;> decide

theorem typeChars_inj (t₁ t₂ : TransactionType) (h : typeChars t₁ = typeChars t₂) :
    t₁ = t₂ := by
  cases t₁ <;> cases t₂ <;> revert h <;> decide

theorem dot_not_mem_natChars (m : ℕ) : '.' ∉ natChars m := by
  intro hm
  have := mem_natChars_isDigit m '.' hm
  simp [Char.isDigit] at this

theorem mem_decimalDigitsPart (n : ℕ) :
    ∀ c ∈ decimalDigitsPart n, c.isDigit = true ∨ c = '.' := by
  intro c hc
  unfold decimalDigitsPart at hc
  by_cases h0 : n % 100 = 0
  · simp only [h0, if_true] at hc
    exact Or.inl (mem_natChars_isDigit _ c hc)
  · by_cases h10 : n % 100 % 10 = 0
    · simp only [h0, h10, if_true, if_false, List.mem_append, List.mem_cons,
        List.not_mem_nil, or_false] at hc
      rcases hc with hc | hc | hc
      · exact Or.inl (mem_natChars_isDigit _ c hc)
      · exact Or.inr hc
      · exact Or.inl (by rw [hc]; exact digitChar_isDigit _)
    · simp only [h0, h10, if_true, if_false, List.mem_append, List.mem_cons,
        List.not_mem_nil, or_false] at hc
      rcases hc with hc | hc | hc | hc
      · exact Or.inl (mem_natChars_isDigit _ c hc)
      · exact Or.inr hc
      · exact Or.inl (by rw [hc]; exact digitChar_isDigit _)
      · exact Or.inl (by rw [hc]; exact digitChar_isDigit _)

theorem no_underscore_decimalDigitsPart (n : ℕ) : '_' ∉ decimalDigitsPart n := by
  intro hm
  rcases mem_decimalDigitsPart n '_' hm with h | h
  · simp [Char.isDigit] at h
  · simp at h

theorem no_underscore_decimalString (a : ℤ) : '_' ∉ decimalString a := by
  intro hm
  unfold decimalString at hm
  by_cases ha : a < 0 <;> simp only [ha, if_true, if_false] at hm
  · rcases List.mem_cons.mp hm with h | h
    · simp at h
    · exact no_underscore_decimalDigitsPart _ h
  · exact no_underscore_decimalDigitsPart _ hm

theorem decimalDigitsPart_head (n : ℕ) :
    ∃ c l, decimalDigitsPart n = c :: l ∧ c.isDigit = true := by
  rcases hne : natChars (n / 100) with _ | ⟨c, rest⟩
  · exact absurd hne (natChars_ne_nil _)
  · have hd : c.isDigit = true :=
      mem_natChars_isDigit (n / 100) c (by rw [hne]; exact List.mem_cons_self c rest)
    unfold decimalDigitsPart
    by_cases h0 : n % 100 = 0
    · exact ⟨c, rest, by simp [h0, hne], hd⟩
    · by_cases h10 : n % 100 % 10 = 0
      · exact ⟨c, rest ++ '.' :: [digitChar (n % 100 / 10)], by simp [h0, h10, hne], hd⟩
      · exact ⟨c, rest ++ '.' :: [digitChar (n % 100 / 10), digitChar (n % 100 % 10)],
          by simp [h0, h10, hne], hd⟩

theorem decimalDigitsPart_inj (a b : ℕ) (h : decimalDigitsPart a = decimalDigitsPart b) :
    a = b := by
  unfold decimalDigitsPart at h
  by_cases ha : a % 100 = 0 <;> by_cases hb : b % 100 = 0
  · simp only [ha, hb, if_true] at h
    have h1 : a / 100 = b / 100 := natChars_inj _ _ h
    omega
  · exfalso
    simp only [ha, hb, if_true, if_false] at h
    by_cases hb10 : b % 100 % 10 = 0 <;> simp only [hb10, if_true, if_false] at h
    · exact dot_not_mem_natChars (a / 100) (h ▸ (by simp : '.' ∈ natChars (b / 100) ++ '.' :: [digitChar (b % 100 / 10)]))
    · exact dot_not_mem_natChars (a / 100) (h ▸ (by simp : '.' ∈ natChars (b / 100) ++ '.' :: [digitChar (b % 100 / 10), digitChar (b % 100 % 10)]))
  · exfalso
    simp only [ha, hb, if_true, if_false] at h
    by_cases ha10 : a % 100 % 10 = 0 <;> simp only [ha10, if_true, if_false] at h
    · exact dot_not_mem_natChars (b / 100) (h ▸ (by simp : '.' ∈ natChars (a / 100) ++ '.' :: [digitChar (a % 100 / 10)]))
    · exact dot_not_mem_natChars (b / 100) (h ▸ (by simp : '.' ∈ natChars (a / 100) ++ '.' :: [digitChar (a % 100 / 10), digitChar (a % 100 % 10)]))
  · simp only [ha, hb, if_false] at h
    by_cases ha10 : a % 100 % 10 = 0 <;> by_cases hb10 : b % 100 % 10 = 0 <;>
      simp only [ha10, hb10, if_true, if_false] at h <;>
      obtain ⟨hint, hfrac⟩ :=
        append_sep_inj (dot_not_mem_natChars _) (dot_not_mem_natChars _) h
    · have h1 : a / 100 = b / 100 := natChars_inj _ _ hint
      simp at hfrac
      have h2 : a % 100 / 10 = b % 100 / 10 :=
        digitChar_inj _ _ (by omega) (by omega) hfrac
      omega
    · exfalso
      simp at hfrac
    · exfalso
      simp at hfrac
    · have h1 : a / 100 = b / 100 := natChars_inj _ _ hint
      simp at hfrac
      have h2 : a % 100 / 10 = b % 100 / 10 :=
        digitChar_inj _ _ (by omega) (by omega) hfrac.1
      have h3 : a % 100 % 10 = b % 100 % 10 :=
        digitChar_inj _ _ (by omega) (by omega) hfrac.2
      omega

theorem decimalString_inj (a b : ℤ) (h : decimalString a = decimalString b) : a = b := by
  unfold decimalString at h
  by_cases ha : a < 0 <;> by_cases hb : b < 0 <;>
    simp only [ha, hb, if_true, if_false] at h
  · simp at h
    have := decimalDigitsPart_inj _ _ h
    omega
  · exfalso
    obtain ⟨c, l, hcl, hdig⟩ := decimalDigitsPart_head b.natAbs
    rw [hcl] at h
    simp at h
    rw [← h.1] at hdig
    simp [Char.isDigit] at hdig
  · exfalso
    obtain ⟨c, l, hcl, hdig⟩ := decimalDigitsPart_head a.natAbs
    rw [hcl] at h
    simp at h
    rw [h.1] at hdig
    simp [Char.isDigit] at hdig
  · have := decimalDigitsPart_inj _ _ h
    omega

theorem dash_not_mem_padNat (w n : ℕ) : '-' ∉ padNat w n := by
  intro hm
  have := mem_padNat_isDigit w n '-' hm
  simp [Char.isDigit] at this

theorem isoDateChars_inj (p q : ℕ × ℕ × ℕ) (h : isoDateChars p = isoDateChars q) :
    p = q := by
  obtain ⟨y₁, m₁, d₁⟩ := p
  obtain ⟨y₂, m₂, d₂⟩ := q
  simp only [isoDateChars] at h
  obtain ⟨hy, hrest⟩ := append_sep_inj (dash_not_mem_padNat _ _) (dash_not_mem_padNat _ _) h
  obtain ⟨hm, hd⟩ := append_sep_inj (dash_not_mem_padNat _ _) (dash_not_mem_padNat _ _) hrest
  simp [padNat_inj _ _ _ hy, padNat_inj _ _ _ hm, padNat_inj _ _ _ hd]

theorem exactBuildKey_eq_iff (t₁ t₂ : TransactionType) (a₁ a₂ : ℤ) (d₁ d₂ : GoTime)
    (i₁ i₂ : Str) :
    exactMatchStrategy.buildKey t₁ a₁ d₁ i₁ = exactMatchStrategy.buildKey t₂ a₂ d₂ i₂ ↔
      t₁ = t₂ ∧ a₁ = a₂ ∧ calendarDateOf d₁ = calendarDateOf d₂ := by
  constructor
  · intro h
    simp only [exactMatchStrategy] at h
    obtain ⟨hty, hrest⟩ :=
      append_sep_inj (typeChars_no_underscore t₁) (typeChars_no_underscore t₂) h
    obtain ⟨hamt, hdate⟩ :=
      append_sep_inj (no_underscore_decimalString a₁) (no_underscore_decimalString a₂) hrest
    exact ⟨typeChars_inj _ _ hty, decimalString_inj _ _ hamt, isoDateChars_inj _ _ hdate⟩
  · rintro ⟨rfl, rfl, hdate⟩
    simp only [exactMatchStrategy, hdate]

/-! ### The bank-statement index -/

theorem buildBankIndex_foldl (strategy : MatchStrategy) :
    ∀ (l : List (ℕ × BankStatementLine)) (init : Str → List ℕ) (k : Str),
      (l.foldl
        (fun idx p =>
          let key := bankKey strategy p.2
          fun k' => if k' = key then idx k' ++ [p.1] else idx k') init) k =
      init k ++ (l.filter (fun p => decide (bankKey strategy p.2 = k))).map Prod.fst := by
  intro l
  induction l with
  | nil => intro init k; simp
  | cons p rest ih =>
    intro init k
    simp only [List.foldl_cons]
    rw [ih]
    by_cases hk : bankKey strategy p.2 = k
    · simp [hk.symm]
    · have hk' : ¬(k = bankKey strategy p.2) := fun h => hk h.symm
      simp [hk, hk']

theorem buildBankIndex_eq (strategy : MatchStrategy) (bankStmts : List BankStatementLine)
    (k : Str) :
    buildBankIndex strategy bankStmts k =
      (bankStmts.enum.filter (fun p => decide (bankKey strategy p.2 = k))).map Prod.fst := by
  unfold buildBankIndex
  rw [buildBankIndex_foldl]
  simp

theorem mem_bucket_lt (strategy : MatchStrategy) (bankStmts : List BankStatementLine)
    (k : Str) (i : ℕ) (h : i ∈ buildBankIndex strategy bankStmts k) :
    i < bankStmts.length := by
  rw [buildBankIndex_eq] at h
  obtain ⟨p, hp, rfl⟩ := List.mem_map.mp h
  have hmem := (List.mem_filter.mp hp).1
  have hget := List.mem_enum_iff_get?.mp hmem
  exact (List.get?_eq_some.mp hget).1

theorem mem_bucket_key (strategy : MatchStrategy) (bankStmts : List BankStatementLine)
    (k : Str) (i : ℕ) (h : i ∈ buildBankIndex strategy bankStmts k) :
    bankKey strategy (bankStmts.getD i dummyBank) = k := by
  rw [buildBankIndex_eq] at h
  obtain ⟨p, hp, rfl⟩ := List.mem_map.mp h
  have hmem := (List.mem_filter.mp hp).1
  have hkey := (List.mem_filter.mp hp).2
  have hget := List.mem_enum_iff_get?.mp hmem
  have hgetD : bankStmts.getD p.1 dummyBank = p.2 := by
    rw [List.getD_eq_getElem?_getD, List.get?_eq_getElem?] at *
    rw [hget]
    rfl
  rw [hgetD]
  simpa using hkey

/-! ### The candidate loop is first-match-wins -/

theorem findFirstMatch_eq_find? (strategy : MatchStrategy)
    (bankStmts : List BankStatementLine) (matchedBank : List ℕ) (sysTrx : Transaction) :
    ∀ l : List ℕ, findFirstMatch strategy bankStmts matchedBank sysTrx l =
      l.find? (admissible strategy bankStmts matchedBank sysTrx) := by
  intro l
  induction l with
  | nil => rfl
  | cons i rest ih =>
    unfold findFirstMatch
    by_cases hc : matchedBank.contains i
    · have hadm : admissible strategy bankStmts matchedBank sysTrx i = false := by
        simp only [admissible, hc, Bool.not_true, Bool.false_and]
      have hcm : i ∈ matchedBank := by simpa using hc
      simp [hcm, List.find?_cons, hadm, ih]
    · have hc' : matchedBank.contains i = false := by simpa using hc
      have hcm : i ∉ matchedBank := by simpa using hc
      by_cases hm : strategy.isMatch sysTrx (bankStmts.getD i dummyBank)
      · have hadm : admissible strategy bankStmts matchedBank sysTrx i = true := by
          simp only [admissible, hc', Bool.not_false, Bool.true_and]
          exact hm
        have hm' : strategy.isMatch sysTrx (bankStmts[i]?.getD dummyBank) = true := by
          rw [← List.getD_eq_getElem?_getD]
          exact hm
        simp [hcm, hm', List.find?_cons, hadm]
      · have hadm : admissible strategy bankStmts matchedBank sysTrx i = false := by
          simp only [admissible, hc', Bool.not_false, Bool.true_and]
          simpa using hm
        have hm' : ¬strategy.isMatch sysTrx (bankStmts[i]?.getD dummyBank) = true := by
          rw [← List.getD_eq_getElem?_getD]
          exact hm
        simp [hcm, hm', List.find?_cons, hadm, ih]

theorem findFirstMatch_some (strategy : MatchStrategy)
    (bankStmts : List BankStatementLine) (matchedBank : List ℕ) (sysTrx : Transaction)
    (l : List ℕ) (i : ℕ)
    (h : findFirstMatch strategy bankStmts matchedBank sysTrx l = some i) :
    i ∈ l ∧ matchedBank.contains i = false ∧
      strategy.isMatch sysTrx (bankStmts.getD i dummyBank) = true := by
  rw [findFirstMatch_eq_find?] at h
  have hmem := List.mem_of_find?_eq_some h
  have hadm := List.find?_some h
  unfold admissible at hadm
  rw [Bool.and_eq_true] at hadm
  exact ⟨hmem, by simpa using hadm.1, hadm.2⟩

/-! ### Counting helpers -/

theorem countP_add_countP_not {α : Type} (l : List α) (p : α → Bool) :
    l.countP p + l.countP (fun a => !(p a)) = l.length := by
  induction l with
  | nil => rfl
  | cons a t ih => by_cases h : p a <;> simp [List.countP_cons, h] <;> omega

theorem countP_range_contained (m : List ℕ) (n : ℕ) (h1 : m.Nodup)
    (h2 : ∀ i ∈ m, i < n) :
    (List.range n).countP (fun i => m.contains i) = m.length := by
  rw [List.countP_eq_length_filter]
  have hperm : ((List.range n).filter (fun i => m.contains i)).Perm m := by
    rw [List.perm_ext_iff_of_nodup (List.Nodup.filter _ (List.nodup_range n)) h1]
    intro a
    simp only [List.mem_filter, List.mem_range]
    constructor
    · intro h
      simpa using h.2
    · intro h
      exact ⟨h2 a h, by simpa using h⟩
  exact hperm.length_eq

theorem countP_range_not_contained (m : List ℕ) (n : ℕ) (h1 : m.Nodup)
    (h2 : ∀ i ∈ m, i < n) :
    (List.range n).countP (fun i => !(m.contains i)) + m.length = n := by
  have := countP_add_countP_not (List.range n) (fun i => m.contains i)
  rw [countP_range_contained m n h1 h2] at this
  simpa [Nat.add_comm] using this

/-! ### The unmatched-bank collection -/

theorem groupLengthSum_addToGroup (gs : List (Str × List BankStatementLine))
    (b : BankStatementLine) :
    groupLengthSum (addToGroup gs b) = groupLengthSum gs + 1 := by
  induction gs with
  | nil => simp [addToGroup, groupLengthSum]
  | cons g rest ih =>
    obtain ⟨name, l⟩ := g
    unfold addToGroup
    by_cases h : name = b.bankName
    · simp [h, groupLengthSum]
      omega
    · simp only [h, if_false]
      simp [groupLengthSum] at ih ⊢
      omega

theorem flattenGroups_addToGroup (gs : List (Str × List BankStatementLine))
    (b : BankStatementLine) :
    (flattenGroups (addToGroup gs b)).Perm (flattenGroups gs ++ [b]) := by
  induction gs with
  | nil => simp [addToGroup, flattenGroups]
  | cons g rest ih =>
    obtain ⟨name, l⟩ := g
    unfold addToGroup
    by_cases h : name = b.bankName
    · rw [if_pos h]
      have e1 : flattenGroups ((name, l ++ [b]) :: rest) =
          l ++ ([b] ++ flattenGroups rest) := by
        simp [flattenGroups]
      have e2 : flattenGroups ((name, l) :: rest) ++ [b] =
          l ++ (flattenGroups rest ++ [b]) := by
        simp [flattenGroups]
      rw [e1, e2]
      exact List.Perm.append_left l List.perm_append_comm
    · rw [if_neg h]
      have e1 : flattenGroups ((name, l) :: addToGroup rest b) =
          l ++ flattenGroups (addToGroup rest b) := by
        simp [flattenGroups]
      have e2 : flattenGroups ((name, l) :: rest) ++ [b] =
          l ++ (flattenGroups rest ++ [b]) := by
        simp [flattenGroups]
      rw [e1, e2]
      exact List.Perm.append_left l ih

theorem collect_foldl_sum (matched : List ℕ) :
    ∀ (l : List (ℕ × BankStatementLine)) (gs : List (Str × List BankStatementLine)),
      groupLengthSum (l.foldl
        (fun gs p => if matched.contains p.1 then gs else addToGroup gs p.2) gs) =
      groupLengthSum gs + l.countP (fun p => !(matched.contains p.1)) := by
  intro l
  induction l with
  | nil => intro gs; simp
  | cons p rest ih =>
    intro gs
    simp only [List.foldl_cons, List.countP_cons]
    by_cases h : matched.contains p.1
    · have hm : p.1 ∈ matched := by simpa using h
      rw [if_pos h, ih gs]
      simp [hm]
    · have hm : p.1 ∉ matched := by simpa using h
      rw [if_neg h, ih (addToGroup gs p.2), groupLengthSum_addToGroup]
      simp [hm]
      omega

theorem collect_foldl_flatten (matched : List ℕ) :
    ∀ (l : List (ℕ × BankStatementLine)) (gs : List (Str × List BankStatementLine)),
      (flattenGroups (l.foldl
        (fun gs p => if matched.contains p.1 then gs else addToGroup gs p.2) gs)).Perm
      (flattenGroups gs ++ (l.filter (fun p => !(matched.contains p.1))).map Prod.snd) := by
  intro l
  induction l with
  | nil => intro gs; simp
  | cons p rest ih =>
    intro gs
    simp only [List.foldl_cons, List.filter_cons]
    by_cases h : matched.contains p.1
    · have hm : p.1 ∈ matched := by simpa using h
      rw [if_pos h, if_neg (show ¬((fun p => !(matched.contains p.1)) p = true) by simp [hm])]
      exact ih gs
    · have hm : p.1 ∉ matched := by simpa using h
      rw [if_neg h, if_pos (show (fun p => !(matched.contains p.1)) p = true by simp [hm])]
      simp only [List.map_cons]
      have step1 := ih (addToGroup gs p.2)
      have step2 : (flattenGroups (addToGroup gs p.2) ++
            (rest.filter (fun p => !(matched.contains p.1))).map Prod.snd).Perm
          ((flattenGroups gs ++ [p.2]) ++
            (rest.filter (fun p => !(matched.contains p.1))).map Prod.snd) :=
        List.Perm.append_right _ (flattenGroups_addToGroup gs p.2)
      have e : (flattenGroups gs ++ [p.2]) ++
            (rest.filter (fun p => !(matched.contains p.1))).map Prod.snd =
          flattenGroups gs ++ p.2 ::
            (rest.filter (fun p => !(matched.contains p.1))).map Prod.snd := by
        simp
      exact (step1.trans step2).trans (e ▸ List.Perm.refl _)

theorem collectUnmatchedBank_sum (bankStmts : List BankStatementLine)
    (matched : List ℕ) (h1 : matched.Nodup) (h2 : ∀ i ∈ matched, i < bankStmts.length) :
    groupLengthSum (collectUnmatchedBank bankStmts matched) + matched.length
      = bankStmts.length := by
  unfold collectUnmatchedBank
  rw [collect_foldl_sum]
  have hc : bankStmts.enum.countP (fun p => !(matched.contains p.1)) =
      (List.range bankStmts.length).countP (fun i => !(matched.contains i)) := by
    rw [← List.enum_map_fst bankStmts, List.countP_map]
    rfl
  rw [hc]
  simpa [groupLengthSum] using countP_range_not_contained matched bankStmts.length h1 h2

theorem collectUnmatchedBank_flatten (bankStmts : List BankStatementLine)
    (matched : List ℕ) :
    (flattenGroups (collectUnmatchedBank bankStmts matched)).Perm
      ((bankStmts.enum.filter (fun p => !(matched.contains p.1))).map Prod.snd) := by
  unfold collectUnmatchedBank
  have := collect_foldl_flatten matched bankStmts.enum []
  simpa [flattenGroups] using this

/-! ### The pairing pass -/

theorem pairingStep_some (strategy : MatchStrategy) (bankStmts : List BankStatementLine)
    (index : Str → List ℕ) (st : PairState) (sysTrx : Transaction) (i : ℕ)
    (h : findFirstMatch strategy bankStmts st.matchedBank sysTrx
          (index (sysKey strategy sysTrx)) = some i) :
    pairingStep strategy bankStmts index st sysTrx =
      { matchedBank := i :: st.matchedBank
        matchedCount := st.matchedCount + 1
        discrepancies :=
          if |sysTrx.amount - (bankStmts.getD i dummyBank).getAbsoluteAmount| = 0
          then st.discrepancies
          else st.discrepancies +
            |sysTrx.amount - (bankStmts.getD i dummyBank).getAbsoluteAmount|
        unmatchedSystem := st.unmatchedSystem
        pairs := st.pairs ++ [(sysTrx, bankStmts.getD i dummyBank)] } := by
  unfold pairingStep
  rw [h]

theorem pairingStep_none (strategy : MatchStrategy) (bankStmts : List BankStatementLine)
    (index : Str → List ℕ) (st : PairState) (sysTrx : Transaction)
    (h : findFirstMatch strategy bankStmts st.matchedBank sysTrx
          (index (sysKey strategy sysTrx)) = none) :
    pairingStep strategy bankStmts index st sysTrx =
      { st with unmatchedSystem := st.unmatchedSystem ++ [sysTrx] } := by
  unfold pairingStep
  rw [h]

theorem pairDiffSum_append_one (pairs : List (Transaction × BankStatementLine))
    (pr : Transaction × BankStatementLine) :
    pairDiffSum (pairs ++ [pr]) = pairDiffSum pairs + |pr.1.amount - pr.2.getAbsoluteAmount| := by
  simp [pairDiffSum]

theorem pairLoop_master (strategy : MatchStrategy) (bankStmts : List BankStatementLine) :
    ∀ (txs : List Transaction) (st : PairState),
      st.matchedBank.Nodup →
      (∀ i ∈ st.matchedBank, i < bankStmts.length) →
      st.matchedBank.length = st.matchedCount →
      st.pairs.length = st.matchedCount →
      st.discrepancies = pairDiffSum st.pairs →
      (∀ pr ∈ st.pairs, bankKey strategy pr.2 = sysKey strategy pr.1 ∧
        strategy.isMatch pr.1 pr.2 = true) →
      ((txs.foldl (pairingStep strategy bankStmts (buildBankIndex strategy bankStmts))
          st).matchedBank.Nodup ∧
      (∀ i ∈ (txs.foldl (pairingStep strategy bankStmts
          (buildBankIndex strategy bankStmts)) st).matchedBank, i < bankStmts.length) ∧
      (txs.foldl (pairingStep strategy bankStmts (buildBankIndex strategy bankStmts))
          st).matchedBank.length =
        (txs.foldl (pairingStep strategy bankStmts (buildBankIndex strategy bankStmts))
          st).matchedCount ∧
      (txs.foldl (pairingStep strategy bankStmts (buildBankIndex strategy bankStmts))
          st).pairs.length =
        (txs.foldl (pairingStep strategy bankStmts (buildBankIndex strategy bankStmts))
          st).matchedCount ∧
      (txs.foldl (pairingStep strategy bankStmts (buildBankIndex strategy bankStmts))
          st).discrepancies =
        pairDiffSum (txs.foldl (pairingStep strategy bankStmts
          (buildBankIndex strategy bankStmts)) st).pairs ∧
      (∀ pr ∈ (txs.foldl (pairingStep strategy bankStmts
          (buildBankIndex strategy bankStmts)) st).pairs,
        bankKey strategy pr.2 = sysKey strategy pr.1 ∧
          strategy.isMatch pr.1 pr.2 = true) ∧
      (txs.foldl (pairingStep strategy bankStmts (buildBankIndex strategy bankStmts))
          st).matchedCount +
        (txs.foldl (pairingStep strategy bankStmts (buildBankIndex strategy bankStmts))
          st).unmatchedSystem.length =
        st.matchedCount + st.unmatchedSystem.length + txs.length ∧
      (∃ u, (txs.foldl (pairingStep strategy bankStmts
          (buildBankIndex strategy bankStmts)) st).unmatchedSystem =
        st.unmatchedSystem ++ u ∧ u.Sublist txs)) := by
  intro txs
  induction txs with
  | nil =>
    intro st h1 h2 h3 h4 h5 h6
    refine ⟨h1, h2, h3, h4, h5, h6, by simp, [], by simp, List.Sublist.refl []⟩
  | cons tx rest ih =>
    intro st h1 h2 h3 h4 h5 h6
    rw [List.foldl_cons]
    rcases hfind : findFirstMatch strategy bankStmts st.matchedBank tx
        (buildBankIndex strategy bankStmts (sysKey strategy tx)) with _ | i
    · -- no admissible candidate: the transaction goes to the unmatched-system list
      rw [pairingStep_none strategy bankStmts _ st tx hfind]
      obtain ⟨g1, g2, g3, g4, g5, g6, g7, u, hu, hsub⟩ :=
        ih { st with unmatchedSystem := st.unmatchedSystem ++ [tx] }
          h1 h2 h3 h4 h5 h6
      refine ⟨g1, g2, g3, g4, g5, g6, ?_, tx :: u, ?_, ?_⟩
      · simp at g7
        simp [g7]
        omega
      · simpa using hu
      · exact List.Sublist.cons₂ tx hsub
    · -- first admissible candidate i: both sides are marked consumed
      have hsome := findFirstMatch_some strategy bankStmts st.matchedBank tx _ i hfind
      have hlt : i < bankStmts.length :=
        mem_bucket_lt strategy bankStmts (sysKey strategy tx) i hsome.1
      have hkey : bankKey strategy (bankStmts.getD i dummyBank) = sysKey strategy tx :=
        mem_bucket_key strategy bankStmts (sysKey strategy tx) i hsome.1
      have hnotmem : i ∉ st.matchedBank := by
        have := hsome.2.1
        simpa using this
      rw [pairingStep_some strategy bankStmts _ st tx i hfind]
      set bank := bankStmts.getD i dummyBank with hbank
      set diff := |tx.amount - bank.getAbsoluteAmount| with hdiff
      have hstep :
          (if diff = 0 then st.discrepancies else st.discrepancies + diff) =
            st.discrepancies + diff := by
        by_cases hz : diff = 0
        · simp [hz]
        · simp [hz]
      obtain ⟨g1, g2, g3, g4, g5, g6, g7, u, hu, hsub⟩ :=
        ih { matchedBank := i :: st.matchedBank
             matchedCount := st.matchedCount + 1
             discrepancies := if diff = 0 then st.discrepancies
               else st.discrepancies + diff
             unmatchedSystem := st.unmatchedSystem
             pairs := st.pairs ++ [(tx, bank)] }
          (by simp [List.nodup_cons, hnotmem, h1])
          (by
            intro j hj
            rcases List.mem_cons.mp hj with rfl | hj
            · exact hlt
            · exact h2 j hj)
          (by simp [h3])
          (by simp [h4])
          (by
            show (if diff = 0 then st.discrepancies else st.discrepancies + diff) = _
            rw [hstep, h5, pairDiffSum_append_one])
          (by
            intro pr hpr
            rcases List.mem_append.mp hpr with hpr | hpr
            · exact h6 pr hpr
            · simp at hpr
              subst hpr
              exact ⟨hkey, hsome.2.2⟩)
      refine ⟨g1, g2, g3, g4, g5, g6, ?_, u, hu, List.Sublist.cons tx hsub⟩
      simp at g7
      simp [g7]
      omega

theorem pairState_core (systemTxs : List Transaction) (bankStmts : List BankStatementLine)
    (strategy : MatchStrategy) :
    (pairSystemTransactions strategy systemTxs bankStmts
        (buildBankIndex strategy bankStmts)).matchedBank.Nodup ∧
    (∀ i ∈ (pairSystemTransactions strategy systemTxs bankStmts
        (buildBankIndex strategy bankStmts)).matchedBank, i < bankStmts.length) ∧
    (pairSystemTransactions strategy systemTxs bankStmts
        (buildBankIndex strategy bankStmts)).matchedBank.length =
      (pairSystemTransactions strategy systemTxs bankStmts
        (buildBankIndex strategy bankStmts)).matchedCount ∧
    (pairSystemTransactions strategy systemTxs bankStmts
        (buildBankIndex strategy bankStmts)).pairs.length =
      (pairSystemTransactions strategy systemTxs bankStmts
        (buildBankIndex strategy bankStmts)).matchedCount ∧
    (pairSystemTransactions strategy systemTxs bankStmts
        (buildBankIndex strategy bankStmts)).discrepancies =
      pairDiffSum (pairSystemTransactions strategy systemTxs bankStmts
        (buildBankIndex strategy bankStmts)).pairs ∧
    (∀ pr ∈ (pairSystemTransactions strategy systemTxs bankStmts
        (buildBankIndex strategy bankStmts)).pairs,
      bankKey strategy pr.2 = sysKey strategy pr.1 ∧
        strategy.isMatch pr.1 pr.2 = true) ∧
    (pairSystemTransactions strategy systemTxs bankStmts
        (buildBankIndex strategy bankStmts)).matchedCount +
      (pairSystemTransactions strategy systemTxs bankStmts
        (buildBankIndex strategy bankStmts)).unmatchedSystem.length = systemTxs.length ∧
    (pairSystemTransactions strategy systemTxs bankStmts
        (buildBankIndex strategy bankStmts)).unmatchedSystem.Sublist systemTxs := by
  have h := pairLoop_master strategy bankStmts systemTxs
    { matchedBank := [], matchedCount := 0, discrepancies := 0
      unmatchedSystem := [], pairs := [] }
    (by simp) (by simp) rfl rfl rfl (by simp)
  obtain ⟨g1, g2, g3, g4, g5, g6, g7, u, hu, hsub⟩ := h
  unfold pairSystemTransactions
  refine ⟨g1, g2, g3, g4, g5, g6, by simpa using g7, ?_⟩
  have : (List.foldl (pairingStep strategy bankStmts (buildBankIndex strategy bankStmts))
      { matchedBank := [], matchedCount := 0, discrepancies := 0
        unmatchedSystem := [], pairs := [] } systemTxs).unmatchedSystem = u := by
    simpa using hu
  rw [this]
  exact hsub

theorem performReconciliation_eq (systemTxs : List Transaction)
    (bankStmts : List BankStatementLine) (strategy : MatchStrategy) :
    performReconciliation systemTxs bankStmts strategy =
      { totalSystemTransactions := systemTxs.length
        totalBankStatementLines := bankStmts.length
        totalMatchedTransactions := (pairSystemTransactions strategy systemTxs bankStmts
          (buildBankIndex strategy bankStmts)).matchedCount
        unmatchedSystemTransactions := (pairSystemTransactions strategy systemTxs bankStmts
          (buildBankIndex strategy bankStmts)).unmatchedSystem
        unmatchedBankStatementLines := collectUnmatchedBank bankStmts
          (pairSystemTransactions strategy systemTxs bankStmts
            (buildBankIndex strategy bankStmts)).matchedBank
        totalDiscrepancies := (pairSystemTransactions strategy systemTxs bankStmts
          (buildBankIndex strategy bankStmts)).discrepancies
        totalTransactionsProcessed := systemTxs.length + bankStmts.length
        totalUnmatchedTransactions :=
          (collectUnmatchedBank bankStmts
            (pairSystemTransactions strategy systemTxs bankStmts
              (buildBankIndex strategy bankStmts)).matchedBank).foldl
            (fun acc g => acc + g.2.length)
            (pairSystemTransactions strategy systemTxs bankStmts
              (buildBankIndex strategy bankStmts)).unmatchedSystem.length } := rfl

theorem foldl_add_group_lengths (gs : List (Str × List BankStatementLine)) :
    ∀ init : ℕ, gs.foldl (fun acc g => acc + g.2.length) init = init + groupLengthSum gs := by
  induction gs with
  | nil => intro init; simp [groupLengthSum]
  | cons g rest ih =>
    intro init
    simp only [List.foldl_cons]
    rw [ih]
    simp [groupLengthSum]
    omega

theorem flattenGroups_length (gs : List (Str × List BankStatementLine)) :
    (flattenGroups gs).length = groupLengthSum gs := by
  simp [flattenGroups, groupLengthSum, Function.comp_def]

theorem perfRec_totalMatched (systemTxs : List Transaction)
    (bankStmts : List BankStatementLine) (strategy : MatchStrategy) :
    (performReconciliation systemTxs bankStmts strategy).totalMatchedTransactions =
      (pairSystemTransactions strategy systemTxs bankStmts
        (buildBankIndex strategy bankStmts)).matchedCount := rfl

theorem perfRec_unmatchedSystem (systemTxs : List Transaction)
    (bankStmts : List BankStatementLine) (strategy : MatchStrategy) :
    (performReconciliation systemTxs bankStmts strategy).unmatchedSystemTransactions =
      (pairSystemTransactions strategy systemTxs bankStmts
        (buildBankIndex strategy bankStmts)).unmatchedSystem := rfl

theorem perfRec_unmatchedBank (systemTxs : List Transaction)
    (bankStmts : List BankStatementLine) (strategy : MatchStrategy) :
    (performReconciliation systemTxs bankStmts strategy).unmatchedBankStatementLines =
      collectUnmatchedBank bankStmts
        (pairSystemTransactions strategy systemTxs bankStmts
          (buildBankIndex strategy bankStmts)).matchedBank := rfl

theorem perfRec_totalDiscrepancies (systemTxs : List Transaction)
    (bankStmts : List BankStatementLine) (strategy : MatchStrategy) :
    (performReconciliation systemTxs bankStmts strategy).totalDiscrepancies =
      (pairSystemTransactions strategy systemTxs bankStmts
        (buildBankIndex strategy bankStmts)).discrepancies := rfl

theorem perfRec_totalUnmatched (systemTxs : List Transaction)
    (bankStmts : List BankStatementLine) (strategy : MatchStrategy) :
    (performReconciliation systemTxs bankStmts strategy).totalUnmatchedTransactions =
      (collectUnmatchedBank bankStmts
        (pairSystemTransactions strategy systemTxs bankStmts
          (buildBankIndex strategy bankStmts)).matchedBank).foldl
        (fun acc g => acc + g.2.length)
        (pairSystemTransactions strategy systemTxs bankStmts
          (buildBankIndex strategy bankStmts)).unmatchedSystem.length := rfl

/-! ### Claims -/

/-- C1: Conservation.  For every pair of (post-filter) input lists and every
strategy, `matchedPairs*2 + unmatchedSystemCount + unmatchedBankCount =
systemCount + bankCount`; moreover matched + unmatched-system = system count
and matched + unmatched-bank = bank count, the unmatched-system list is a
sublist of the input (each system transaction lands in exactly one of
matched/unmatched, no duplication, no omission), and the per-source
unmatched groups hold exactly a duplicate-free selection of the bank input
(a permutation of a sublist) of the complementary size. -/
theorem claim_C1_conservation (systemTxs : List Transaction)
    (bankStmts : List BankStatementLine) (strategy : MatchStrategy) :
    (performReconciliation systemTxs bankStmts strategy).totalMatchedTransactions * 2 +
        (performReconciliation systemTxs bankStmts
          strategy).unmatchedSystemTransactions.length +
        groupLengthSum (performReconciliation systemTxs bankStmts
          strategy).unmatchedBankStatementLines
      = systemTxs.length + bankStmts.length ∧
    (performReconciliation systemTxs bankStmts strategy).totalMatchedTransactions +
        (performReconciliation systemTxs bankStmts
          strategy).unmatchedSystemTransactions.length
      = systemTxs.length ∧
    (performReconciliation systemTxs bankStmts strategy).totalMatchedTransactions +
        groupLengthSum (performReconciliation systemTxs bankStmts
          strategy).unmatchedBankStatementLines
      = bankStmts.length ∧
    ((performReconciliation systemTxs bankStmts
      strategy).unmatchedSystemTransactions).Sublist systemTxs ∧
    ∃ ub : List BankStatementLine, ub.Sublist bankStmts ∧
      (flattenGroups (performReconciliation systemTxs bankStmts
        strategy).unmatchedBankStatementLines).Perm ub ∧
      ub.length + (performReconciliation systemTxs bankStmts
        strategy).totalMatchedTransactions = bankStmts.length := by
  obtain ⟨g1, g2, g3, g4, g5, g6, g7, g8⟩ := pairState_core systemTxs bankStmts strategy
  rw [perfRec_totalMatched, perfRec_unmatchedSystem, perfRec_unmatchedBank]
  have hbank := collectUnmatchedBank_sum bankStmts
    (pairSystemTransactions strategy systemTxs bankStmts
      (buildBankIndex strategy bankStmts)).matchedBank g1 g2
  rw [g3] at hbank
  refine ⟨by omega, by omega, by omega, g8, ?_⟩
  refine ⟨(bankStmts.enum.filter (fun p =>
    !((pairSystemTransactions strategy systemTxs bankStmts
      (buildBankIndex strategy bankStmts)).matchedBank.contains p.1))).map Prod.snd,
    ?_, ?_, ?_⟩
  · have hsub : (bankStmts.enum.filter (fun p =>
        !((pairSystemTransactions strategy systemTxs bankStmts
          (buildBankIndex strategy bankStmts)).matchedBank.contains p.1))).Sublist
        bankStmts.enum := List.filter_sublist _
    have := hsub.map Prod.snd
    rwa [List.enum_map_snd] at this
  · exact collectUnmatchedBank_flatten bankStmts _
  · have hperm := collectUnmatchedBank_flatten bankStmts
      (pairSystemTransactions strategy systemTxs bankStmts
        (buildBankIndex strategy bankStmts)).matchedBank
    have hlen := hperm.length_eq
    rw [flattenGroups_length] at hlen
    omega

/-- C9: Aggregation totals.  The processed-transactions count is the sum
`len(systemTxs) + len(bankStmts)` of the two (post-filter) sides, and the
total-unmatched count is the unmatched-system count plus the sum of the
per-source unmatched-bank group sizes; on a concrete 1-system/2-bank input
the processed count is 3, which differs from the max-of-both-sides
definition. -/
theorem claim_C9_aggregation (systemTxs : List Transaction)
    (bankStmts : List BankStatementLine) (strategy : MatchStrategy) :
    (performReconciliation systemTxs bankStmts strategy).totalTransactionsProcessed
      = systemTxs.length + bankStmts.length ∧
    (performReconciliation systemTxs bankStmts strategy).totalUnmatchedTransactions
      = (performReconciliation systemTxs bankStmts
          strategy).unmatchedSystemTransactions.length +
        groupLengthSum (performReconciliation systemTxs bankStmts
          strategy).unmatchedBankStatementLines ∧
    (performReconciliation [exSysCredit] [exBank1, exBank2]
      exactMatchStrategy).totalTransactionsProcessed = 3 ∧
    (performReconciliation [exSysCredit] [exBank1, exBank2]
        exactMatchStrategy).totalTransactionsProcessed ≠
      max [exSysCredit].length [exBank1, exBank2].length := by
  refine ⟨rfl, ?_, by decide, by decide⟩
  rw [perfRec_totalUnmatched, perfRec_unmatchedSystem, perfRec_unmatchedBank]
  exact foldl_add_group_lengths _ _

/-- C4: Exact-strategy key semantics.  Under the default Exact Match
strategy, `IsMatch` always returns true, `BuildKey` is
`direction ++ "_" ++ decimal-string(magnitude) ++ "_" ++ ISO-date(calendar
date)` — a function only of direction, magnitude and the calendar date
(so time-of-day and id are ignored) — and two records yield the same key
iff they agree on direction, magnitude and calendar date; in particular
the same amount/type on 2024-01-15 vs 2024-01-16 yields different keys
and the engine forms no pair. -/
theorem claim_C4_exact_key (sysTrx : Transaction) (bankStmt : BankStatementLine)
    (t₁ t₂ : TransactionType) (a₁ a₂ : ℤ) (d₁ d₂ : GoTime) (i₁ i₂ : Str) :
    exactMatchStrategy.isMatch sysTrx bankStmt = true ∧
    exactMatchStrategy.buildKey t₁ a₁ d₁ i₁ =
      typeChars t₁ ++ '_' :: (decimalString a₁ ++ '_' :: isoDateChars (calendarDateOf d₁)) ∧
    (exactMatchStrategy.buildKey t₁ a₁ d₁ i₁ = exactMatchStrategy.buildKey t₂ a₂ d₂ i₂ ↔
      t₁ = t₂ ∧ a₁ = a₂ ∧ calendarDateOf d₁ = calendarDateOf d₂) ∧
    exactMatchStrategy.buildKey .Credit 100000 (mkTime day20240115 0) [] ≠
      exactMatchStrategy.buildKey .Credit 100000 (mkTime (day20240115 + 1) 0) [] ∧
    (performReconciliation [exSysCredit] [exBankNextDay]
      exactMatchStrategy).totalMatchedTransactions = 0 := by
  refine ⟨rfl, rfl, exactBuildKey_eq_iff t₁ t₂ a₁ a₂ d₁ d₂ i₁ i₂, by decide, by decide⟩

/-- C5: Discrepancy.  For every strategy the result's total discrepancy is
the sum of `|systemAmount − bankAbsoluteAmount|` over the matched pairs
only (the matched-pair list has exactly `totalMatchedTransactions`
entries, and unmatched records contribute nothing); under the default
exact-match strategy every matched pair has amount difference zero, so
the total discrepancy is zero for all inputs. -/
theorem claim_C5_discrepancy (systemTxs : List Transaction)
    (bankStmts : List BankStatementLine) :
    (∀ strategy : MatchStrategy,
      (performReconciliation systemTxs bankStmts strategy).totalDiscrepancies =
        pairDiffSum (matchedPairs systemTxs bankStmts strategy) ∧
      (matchedPairs systemTxs bankStmts strategy).length =
        (performReconciliation systemTxs bankStmts strategy).totalMatchedTransactions) ∧
    (∀ pr ∈ matchedPairs systemTxs bankStmts exactMatchStrategy,
      |pr.1.amount - pr.2.getAbsoluteAmount| = 0) ∧
    (performReconciliation systemTxs bankStmts exactMatchStrategy).totalDiscrepancies
      = 0 := by
  have hzero : ∀ pr ∈ matchedPairs systemTxs bankStmts exactMatchStrategy,
      |pr.1.amount - pr.2.getAbsoluteAmount| = 0 := by
    intro pr hpr
    obtain ⟨g1, g2, g3, g4, g5, g6, g7, g8⟩ :=
      pairState_core systemTxs bankStmts exactMatchStrategy
    have hkey := (g6 pr hpr).1
    unfold bankKey sysKey at hkey
    have := (exactBuildKey_eq_iff pr.2.type pr.1.type pr.2.getAbsoluteAmount pr.1.amount
      pr.2.date pr.1.transactionTime pr.2.uniqueIdentifier pr.1.trxID).mp hkey
    rw [this.2.1]
    simp
  refine ⟨?_, hzero, ?_⟩
  · intro strategy
    obtain ⟨g1, g2, g3, g4, g5, g6, g7, g8⟩ :=
      pairState_core systemTxs bankStmts strategy
    exact ⟨by rw [perfRec_totalDiscrepancies]; exact g5,
      by rw [perfRec_totalMatched]; exact g4⟩
  · obtain ⟨g1, g2, g3, g4, g5, g6, g7, g8⟩ :=
      pairState_core systemTxs bankStmts exactMatchStrategy
    rw [perfRec_totalDiscrepancies, g5]
    unfold pairDiffSum
    apply List.sum_eq_zero
    intro x hx
    obtain ⟨pr, hpr, rfl⟩ := List.mem_map.mp hx
    exact hzero pr hpr

/-- Witness for C5: on the concrete DEBIT example the matched pair
`(500.50 system DEBIT, −500.50 bank line)` has zero amount difference. -/
theorem claim_C5_discrepancy_witness :
    (exSysDebit, exBankNegative) ∈ matchedPairs [exSysDebit] [exBankNegative]
        exactMatchStrategy ∧
    |exSysDebit.amount - exBankNegative.getAbsoluteAmount| = 0 :=
  ⟨by decide, (claim_C5_discrepancy [exSysDebit] [exBankNegative]).2.1
    (exSysDebit, exBankNegative) (by decide)⟩

/-- C8: Bank-line direction invariant.  Every bank statement line built by
the parser's row construction has direction DEBIT iff its raw amount is
negative (zero and positive amounts give CREDIT), its matching magnitude
is the absolute value of the amount, and a system DEBIT of 500.50 matches
a parsed bank line of amount −500.50 on the same calendar date. -/
theorem claim_C8_bank_direction (id : Str) (amount : ℤ) (date : GoTime)
    (bankName : Str) :
    ((mkBankStatementLine id amount date bankName).type = .Debit ↔ amount < 0) ∧
    ((mkBankStatementLine id amount date bankName).type = .Credit ↔ 0 ≤ amount) ∧
    (mkBankStatementLine id amount date bankName).getAbsoluteAmount = |amount| ∧
    exBankNegative.type = .Debit ∧
    exBankNegative.getAbsoluteAmount = 50050 ∧
    (performReconciliation [exSysDebit] [exBankNegative]
      exactMatchStrategy).totalMatchedTransactions = 1 := by
  refine ⟨?_, ?_, rfl, by decide, by decide, by decide⟩
  · unfold mkBankStatementLine deriveBankType
    by_cases h : amount < 0 <;> simp [h]
  · unfold mkBankStatementLine deriveBankType
    by_cases h : amount < 0
    · simp [h]
    · simp [h]
      omega

/-- C2: First-match-wins pairing.  The candidate loop returns the first
bucket position that is not yet consumed and passes `IsMatch`
(`List.find?` over the bucket in bank input order); on a hit the pairing
step marks the position consumed, increments the matched counter,
accumulates the amount difference and stops; on a miss the system
transaction is appended to the unmatched-system list.  One system
transaction of 1000.00/CREDIT/2024-01-15 against two identical bank lines
on that date consumes exactly position 0 (the first in input order): the
second line is the only unmatched record. -/
theorem claim_C2_first_match_wins (strategy : MatchStrategy)
    (bankStmts : List BankStatementLine) (matchedBank : List ℕ)
    (sysTrx : Transaction) (index : Str → List ℕ) (st : PairState) (i : ℕ)
    (l : List ℕ) :
    findFirstMatch strategy bankStmts matchedBank sysTrx l =
      l.find? (admissible strategy bankStmts matchedBank sysTrx) ∧
    (findFirstMatch strategy bankStmts st.matchedBank sysTrx
        (index (sysKey strategy sysTrx)) = some i →
      pairingStep strategy bankStmts index st sysTrx =
        { matchedBank := i :: st.matchedBank
          matchedCount := st.matchedCount + 1
          discrepancies :=
            if |sysTrx.amount - (bankStmts.getD i dummyBank).getAbsoluteAmount| = 0
            then st.discrepancies
            else st.discrepancies +
              |sysTrx.amount - (bankStmts.getD i dummyBank).getAbsoluteAmount|
          unmatchedSystem := st.unmatchedSystem
          pairs := st.pairs ++ [(sysTrx, bankStmts.getD i dummyBank)] }) ∧
    (findFirstMatch strategy bankStmts st.matchedBank sysTrx
        (index (sysKey strategy sysTrx)) = none →
      pairingStep strategy bankStmts index st sysTrx =
        { st with unmatchedSystem := st.unmatchedSystem ++ [sysTrx] }) ∧
    (performReconciliation [exSysCredit] [exBank1, exBank2]
      exactMatchStrategy).totalMatchedTransactions = 1 ∧
    (performReconciliation [exSysCredit] [exBank1, exBank2]
      exactMatchStrategy).unmatchedSystemTransactions = [] ∧
    (performReconciliation [exSysCredit] [exBank1, exBank2]
      exactMatchStrategy).unmatchedBankStatementLines = [("bank-a".data, [exBank2])] ∧
    (pairSystemTransactions exactMatchStrategy [exSysCredit] [exBank1, exBank2]
      (buildBankIndex exactMatchStrategy [exBank1, exBank2])).matchedBank = [0] := by
  refine ⟨findFirstMatch_eq_find? strategy bankStmts matchedBank sysTrx l,
    pairingStep_some strategy bankStmts index st sysTrx i,
    pairingStep_none strategy bankStmts index st sysTrx,
    by decide, by decide, by decide, by decide⟩

/-- Witness for C2: the pairing step applied to the concrete
1000.00/CREDIT system transaction and the two identical bank lines
consumes exactly the first bank line (position 0). -/
theorem claim_C2_first_match_wins_witness :
    pairingStep exactMatchStrategy [exBank1, exBank2]
      (buildBankIndex exactMatchStrategy [exBank1, exBank2])
      { matchedBank := [], matchedCount := 0, discrepancies := 0
        unmatchedSystem := [], pairs := [] } exSysCredit =
      { matchedBank := [0], matchedCount := 1, discrepancies := 0
        unmatchedSystem := [], pairs := [(exSysCredit, exBank1)] } := by
  have h := (claim_C2_first_match_wins exactMatchStrategy [exBank1, exBank2] []
    exSysCredit (buildBankIndex exactMatchStrategy [exBank1, exBank2])
    { matchedBank := [], matchedCount := 0, discrepancies := 0
      unmatchedSystem := [], pairs := [] } 0 []).2.1 (by decide)
  rw [h]
  decide

/-- C3: Error handling.  `Reconcile` fails exactly when `startDate` is
strictly after the normalized `endDate`: in that case it returns the
range error (and performs no further work — no filtering or pairing
result is produced), otherwise it returns the complete result of
filtering and pairing; every error it returns is the range error. -/
theorem claim_C3_range_error (systemTransactions : List Transaction)
    (bankStatements : List BankStatementLine) (strategy : MatchStrategy)
    (startDate endDate : GoTime) :
    (startDate.after (if endDate.isZero then startDate.add (23 * 3600 + 59 * 60 + 59)
        else endDate) = true →
      Reconcile systemTransactions bankStatements strategy startDate endDate =
        .error rangeErrorMsg) ∧
    (startDate.after (if endDate.isZero then startDate.add (23 * 3600 + 59 * 60 + 59)
        else endDate) = false →
      Reconcile systemTransactions bankStatements strategy startDate endDate =
        .ok (performReconciliation
          (filterTransactionsByDateRange systemTransactions startDate
            (if endDate.isZero then startDate.add (23 * 3600 + 59 * 60 + 59) else endDate))
          (filterBankStatementsByDateRange bankStatements startDate
            (if endDate.isZero then startDate.add (23 * 3600 + 59 * 60 + 59) else endDate))
          strategy)) ∧
    (∀ e, Reconcile systemTransactions bankStatements strategy startDate endDate =
        .error e →
      e = rangeErrorMsg ∧
        startDate.after (if endDate.isZero then startDate.add (23 * 3600 + 59 * 60 + 59)
          else endDate) = true) := by
  unfold Reconcile
  by_cases hz : endDate.isZero <;>
    simp only [hz, if_true, if_false, Bool.false_eq_true]
  · by_cases ha : startDate.after (startDate.add 86399) = true <;>
      simp [ha]
  · by_cases ha : startDate.after endDate = true <;> simp [ha]

/-- Witness for C3: the spec's concrete range-validation example
(start 2024-12-31, end 2024-01-01) yields the range error; a valid
concrete range yields a complete result. -/
theorem claim_C3_range_error_witness :
    Reconcile [exSysCredit] [exBank1] exactMatchStrategy (mkTime 20088 0)
        (mkTime 19723 0) = .error rangeErrorMsg ∧
    Reconcile [exSysCredit] [exBank1] exactMatchStrategy (mkTime day20240115 0)
        (mkTime day20240115 0) =
      .ok (performReconciliation
        (filterTransactionsByDateRange [exSysCredit] (mkTime day20240115 0)
          (mkTime day20240115 0))
        (filterBankStatementsByDateRange [exBank1] (mkTime day20240115 0)
          (mkTime day20240115 0))
        exactMatchStrategy) :=
  ⟨by
    have h := (claim_C3_range_error [exSysCredit] [exBank1] exactMatchStrategy
      (mkTime 20088 0) (mkTime 19723 0)).1 (by decide)
    simpa using h,
   by
    have h := (claim_C3_range_error [exSysCredit] [exBank1] exactMatchStrategy
      (mkTime day20240115 0) (mkTime day20240115 0)).2.1 (by decide)
    simpa using h⟩

/-- C6: Date-range filtering is inclusive on both boundaries: a system
transaction is kept iff `startDate ≤ timestamp ≤ endDate` (full
timestamp), a bank line is kept iff `startDate ≤ date ≤ endDate`;
concretely, records exactly at `startDate 00:00:00` and `endDate
23:59:59` are kept while records one day before the start or after the
end are dropped. -/
theorem claim_C6_filter_inclusive :
    (∀ (transactions : List Transaction) (startDate endDate : GoTime),
      filterTransactionsByDateRange transactions startDate endDate =
        transactions.filter (fun trx =>
          decide (startDate.sec ≤ trx.transactionTime.sec ∧
            trx.transactionTime.sec ≤ endDate.sec))) ∧
    (∀ (statements : List BankStatementLine) (startDate endDate : GoTime),
      filterBankStatementsByDateRange statements startDate endDate =
        statements.filter (fun stmt =>
          decide (startDate.sec ≤ stmt.date.sec ∧ stmt.date.sec ≤ endDate.sec))) ∧
    filterTransactionsByDateRange [exTxStart, exTxEnd, exTxDayBefore, exTxDayAfter]
        (mkTime day20240115 0) (mkTime day20240115 (23 * 3600 + 59 * 60 + 59)) =
      [exTxStart, exTxEnd] ∧
    filterBankStatementsByDateRange [exBankStart, exBankDayAfter]
        (mkTime day20240115 0) (mkTime day20240115 (23 * 3600 + 59 * 60 + 59)) =
      [exBankStart] := by
  refine ⟨?_, ?_, by decide, by decide⟩
  · intro transactions startDate endDate
    unfold filterTransactionsByDateRange
    apply List.filter_congr
    intro trx _
    simp only [GoTime.before, GoTime.after, ← decide_not, ← Bool.decide_and]
    exact decide_eq_decide.mpr (by omega)
  · intro statements startDate endDate
    unfold filterBankStatementsByDateRange
    apply List.filter_congr
    intro stmt _
    simp only [GoTime.before, GoTime.after, ← decide_not, ← Bool.decide_and]
    exact decide_eq_decide.mpr (by omega)

theorem reconcile_zero_end (systemTransactions : List Transaction)
    (bankStatements : List BankStatementLine) (strategy : MatchStrategy)
    (startDate endDate : GoTime) (h : endDate.isZero = true) :
    Reconcile systemTransactions bankStatements strategy startDate endDate =
      .ok (performReconciliation
        (filterTransactionsByDateRange systemTransactions startDate
          (startDate.add (23 * 3600 + 59 * 60 + 59)))
        (filterBankStatementsByDateRange bankStatements startDate
          (startDate.add (23 * 3600 + 59 * 60 + 59)))
        strategy) := by
  unfold Reconcile
  have hafter : startDate.after (startDate.add 86399) = false := by
    simp [GoTime.after, GoTime.add]
  simp [h, hafter]

/-- C7 counterexample: with the zero end-date sentinel and a start date of
2024-01-15 10:00:00, the engine does not filter with 23:59:59 of the
start's calendar day: a transaction at 2024-01-16 09:00:00 — strictly
after the end of the start's calendar day — is processed (the actual
result differs from the spec-modelled end-of-day result, which would be
empty). -/
theorem claim_C7_counterexample :
    zeroTime.isZero = true ∧
    (Reconcile [exTxNextMorning] [] exactMatchStrategy
        (mkTime day20240115 (10 * 3600)) zeroTime).toOption.map
      (fun r => r.totalTransactionsProcessed) = some 1 ∧
    (performReconciliation
      (filterTransactionsByDateRange [exTxNextMorning] (mkTime day20240115 (10 * 3600))
        (specEndOfCalendarDay (mkTime day20240115 (10 * 3600))))
      (filterBankStatementsByDateRange [] (mkTime day20240115 (10 * 3600))
        (specEndOfCalendarDay (mkTime day20240115 (10 * 3600))))
      exactMatchStrategy).totalTransactionsProcessed = 0 ∧
    (Reconcile [exTxNextMorning] [] exactMatchStrategy
        (mkTime day20240115 (10 * 3600)) zeroTime).toOption ≠
      some (performReconciliation
        (filterTransactionsByDateRange [exTxNextMorning]
          (mkTime day20240115 (10 * 3600))
          (specEndOfCalendarDay (mkTime day20240115 (10 * 3600))))
        (filterBankStatementsByDateRange [] (mkTime day20240115 (10 * 3600))
          (specEndOfCalendarDay (mkTime day20240115 (10 * 3600))))
        exactMatchStrategy) := by decide

/-- C7 (amended): when `endDate` is the zero sentinel, `Reconcile` sets the
end date to `startDate + 23h59m59s` (not, in general, to 23:59:59 of
`startDate`'s calendar day) before validating and filtering; the two
notions coincide exactly when `startDate` is a midnight timestamp in the
records' timezone. -/
theorem claim_C7_enddate_default (systemTransactions : List Transaction)
    (bankStatements : List BankStatementLine) (strategy : MatchStrategy)
    (startDate endDate : GoTime) (h : endDate.isZero = true) :
    Reconcile systemTransactions bankStatements strategy startDate endDate =
      .ok (performReconciliation
        (filterTransactionsByDateRange systemTransactions startDate
          (startDate.add (23 * 3600 + 59 * 60 + 59)))
        (filterBankStatementsByDateRange bankStatements startDate
          (startDate.add (23 * 3600 + 59 * 60 + 59)))
        strategy) ∧
    ((startDate.sec + tzOffsetSeconds) % 86400 = 0 →
      startDate.add (23 * 3600 + 59 * 60 + 59) = specEndOfCalendarDay startDate) := by
  refine ⟨reconcile_zero_end systemTransactions bankStatements strategy
    startDate endDate h, ?_⟩
  intro hmid
  unfold specEndOfCalendarDay dayNumber GoTime.add
  rw [Int.fdiv_eq_ediv _ (by omega)]
  have : (startDate.sec + tzOffsetSeconds) / 86400 * 86400 =
      startDate.sec + tzOffsetSeconds := by omega
  rw [GoTime.mk.injEq]
  omega

/-- Witness for C7 (amended): concrete zero-sentinel run at midnight
2024-01-15. -/
theorem claim_C7_enddate_default_witness :
    Reconcile [exSysCredit] [exBank1] exactMatchStrategy (mkTime day20240115 0)
        zeroTime =
      .ok (performReconciliation
        (filterTransactionsByDateRange [exSysCredit] (mkTime day20240115 0)
          ((mkTime day20240115 0).add (23 * 3600 + 59 * 60 + 59)))
        (filterBankStatementsByDateRange [exBank1] (mkTime day20240115 0)
          ((mkTime day20240115 0).add (23 * 3600 + 59 * 60 + 59)))
        exactMatchStrategy) ∧
    (mkTime day20240115 0).add (23 * 3600 + 59 * 60 + 59) =
      specEndOfCalendarDay (mkTime day20240115 0) :=
  ⟨(claim_C7_enddate_default [exSysCredit] [exBank1] exactMatchStrategy
      (mkTime day20240115 0) zeroTime (by decide)).1,
   (claim_C7_enddate_default [exSysCredit] [exBank1] exactMatchStrategy
      (mkTime day20240115 0) zeroTime (by decide)).2 (by decide)⟩

/-- C10: with the zero/unset end-date sentinel, `Reconcile` never returns
the invalid-range error — the defaulted end date is `startDate` plus
23h59m59s, never before `startDate` — so every error implies an explicit
end date was supplied; and an explicit (non-sentinel) end date before the
start date does reach the range error. -/
theorem claim_C10_zero_end_never_fails (systemTransactions : List Transaction)
    (bankStatements : List BankStatementLine) (strategy : MatchStrategy)
    (startDate endDate : GoTime) :
    (endDate.isZero = true →
      ∃ r, Reconcile systemTransactions bankStatements strategy startDate endDate =
        .ok r) ∧
    (∀ e, Reconcile systemTransactions bankStatements strategy startDate endDate =
        .error e → endDate.isZero = false) ∧
    ((mkTime 19723 0).isZero = false ∧
      Reconcile systemTransactions bankStatements strategy (mkTime 20088 0)
        (mkTime 19723 0) = .error rangeErrorMsg) := by
  refine ⟨?_, ?_, by decide, ?_⟩
  · intro h
    exact ⟨_, reconcile_zero_end systemTransactions bankStatements strategy
      startDate endDate h⟩
  · intro e he
    by_cases h : endDate.isZero = true
    · rw [reconcile_zero_end systemTransactions bankStatements strategy
        startDate endDate h] at he
      exact absurd he (by simp)
    · simpa using h
  · unfold Reconcile
    have h1 : (mkTime 19723 0).isZero = false := by decide
    have h2 : (mkTime 20088 0).after (mkTime 19723 0) = true := by decide
    simp [h1, h2]

/-- Witness for C10: a concrete zero-sentinel run succeeds. -/
theorem claim_C10_zero_end_never_fails_witness :
    zeroTime.isZero = true ∧
    ∃ r, Reconcile [exSysCredit] [exBank1] exactMatchStrategy
      (mkTime day20240115 0) zeroTime = .ok r :=
  ⟨by decide,
   (claim_C10_zero_end_never_fails [exSysCredit] [exBank1] exactMatchStrategy
      (mkTime day20240115 0) zeroTime).1 (by decide)⟩
